import Mathlib

/-!
Shallow embedding of the MMLU benchmark-evaluation harness
(`benchmark_evaluator.py`, `prompt_generator.py`, `main.py`).

The external Ollama model is modelled as an invoker function returning
`Except String String`: `.ok r` is a successful raw text response, `.error e`
a transport/timeout failure. For call counting the orchestration-level code
uses a call-indexed oracle `Nat → String → Except String String` (call
number, prompt). Python floats that only ever hold 0.0 / 1.0 / percentages
are modelled as `ℚ`.
-/

namespace Harness

/-- A successful response or a transport failure from the model invoker. -/
abbrev InvokeResult := Except String String

/-- Call-indexed invoker oracle: argument 1 is the global call number,
argument 2 the prompt text. -/
abbrev Invoker := Nat → String → InvokeResult

/-- Python `str.strip()`: remove leading and trailing whitespace. -/
def pyStrip (s : String) : String :=
  ⟨((s.data.dropWhile Char.isWhitespace).reverse.dropWhile
      Char.isWhitespace).reverse⟩

/-- Python `str.upper()` (ASCII fragment, which is all the harness needs). -/
def pyUpper (s : String) : String := ⟨s.data.map Char.toUpper⟩

/-- The post-processing `_evaluate_single` applies to a successful raw
response: `response = r.strip().upper()`; if the result is not exactly one
of A/B/C/D, replace it by its first character when that character is one of
A/B/C/D, else by "A". -/
def normalizeResponse (r : String) : String :=
  let response := pyUpper (pyStrip r)
  if response ∈ ["A", "B", "C", "D"] then response
  else
    match response.data with
    | [] => "A"
    | c :: _ => if c ∈ ['A', 'B', 'C', 'D'] then String.mk [c] else "A"

/-- `BenchmarkEvaluator._evaluate_single`: invoke the model on the prompt;
on success normalize the response, on failure re-raise as
`RuntimeError("Failed to evaluate question with Ollama: ...")`. -/
def evaluateSingle (invoke : String → InvokeResult) (prompt : String) :
    InvokeResult :=
  match invoke prompt with
  | .ok r => .ok (normalizeResponse r)
  | .error e => .error ("Failed to evaluate question with Ollama: " ++ e)

/-- One row of `_load_test_data`'s output: question text, the four choice
texts `row[1:5]`, and the ground-truth answer `row[5].strip().upper()`. -/
structure TestItem where
  question : String
  choices : List String
  answer : String
  deriving DecidableEq, Repr

/-- `BenchmarkEvaluator._load_test_data`: keep the rows with at least six
fields; each becomes a `TestItem`. -/
def loadTestData : List (List String) → List TestItem
  | [] => []
  | row :: rest =>
    match row with
    | q :: c1 :: c2 :: c3 :: c4 :: a :: _ =>
      ⟨q, [c1, c2, c3, c4], pyUpper (pyStrip a)⟩ :: loadTestData rest
    | _ => loadTestData rest

/-- `BenchmarkEvaluator._format_mmlu_prompt`. -/
def formatMmluPrompt (question : String) (choices : List String) : String :=
  "Answer the following multiple choice question by selecting " ++
  "only the letter (A, B, C, or D) of the correct answer.\n" ++
  "\nQuestion: " ++ question ++ "\n" ++
  "A. " ++ choices.getD 0 "" ++ "\n" ++
  "B. " ++ choices.getD 1 "" ++ "\n" ++
  "C. " ++ choices.getD 2 "" ++ "\n" ++
  "D. " ++ choices.getD 3 "" ++ "\n" ++
  "\nAnswer (only the letter):"

/-- Python `max(scores)` on a list (junk value 0 on the empty list, on which
the source never calls it). -/
def pyMax : List ℚ → ℚ
  | [] => 0
  | x :: xs => xs.foldl max x

/-- Python `scores.index(max(scores))`: index of the first occurrence of the
maximum. -/
def firstMaxIdx (scores : List ℚ) : Nat :=
  scores.findIdx (fun s => s == pyMax scores)

/-- The scoring loop of `run_optimized_evaluation`: evaluate every variant
of `row` in order (one invoker call each, at consecutive call numbers
starting from `k`), recording 1.0 when the predicted label matches the
ground truth and 0.0 otherwise. Returns the score list and the next call
number; a transport failure aborts the whole loop. -/
def scoreVariants (oracle : Invoker) (choices : List String) (answer : String) :
    Nat → List String → Except String (List ℚ × Nat)
  | k, [] => .ok ([], k)
  | k, v :: vs =>
    match evaluateSingle (oracle k) (formatMmluPrompt v choices) with
    | .error e => .error e
    | .ok predicted =>
      match scoreVariants oracle choices answer (k + 1) vs with
      | .error e => .error e
      | .ok (rest, k') =>
        .ok ((if predicted = answer then (1 : ℚ) else 0) :: rest, k')

/-- Per-question record appended by `run_optimized_evaluation`. -/
structure OptResult where
  original_question : String
  best_prompt : String
  best_idx : Nat
  scores : List ℚ
  predicted : String
  correct : String
  is_correct : Bool
  deriving DecidableEq, Repr

/-- The body of `run_optimized_evaluation`'s loop for one (question,
variant-row) pair: score every variant, pick the first index achieving the
maximum score, then make one more fresh invoker call on the selected
variant's prompt to obtain the final judgment. -/
def evalOptimizedQuestion (oracle : Invoker) (k : Nat) (item : TestItem)
    (row : List String) : Except String (OptResult × Nat) :=
  match scoreVariants oracle item.choices item.answer k row with
  | .error e => .error e
  | .ok (scores, k₁) =>
    let bestIdx := firstMaxIdx scores
    let bestQuestion := row.getD bestIdx ""
    match evaluateSingle (oracle k₁) (formatMmluPrompt bestQuestion item.choices) with
    | .error e => .error e
    | .ok predicted =>
      .ok (⟨item.question, bestQuestion, bestIdx, scores, predicted,
            item.answer, predicted = item.answer⟩, k₁ + 1)

/-- `accuracy = (correct / total * 100) if total > 0 else 0`. -/
def accuracy (correct total : Nat) : ℚ :=
  if 0 < total then (correct : ℚ) / total * 100 else 0

/-- Per-question record appended by `run_baseline_evaluation`. -/
structure BaselineResult where
  question : String
  predicted : String
  correct : String
  is_correct : Bool
  deriving DecidableEq, Repr

/-- A per-question result of either mode, as stored in a report's
`results` list. -/
inductive QRes where
  | base : BaselineResult → QRes
  | opt : OptResult → QRes
  deriving DecidableEq, Repr

/-- The dictionary returned by both evaluation runs and persisted to
storage: total, correct, accuracy, ordered per-question results. -/
structure RunReport where
  total : Nat
  correct : Nat
  accuracy : ℚ
  results : List QRes
  deriving DecidableEq, Repr

/-- The loop of `run_baseline_evaluation`: one invoker call per question at
consecutive call numbers; returns (total, correct, results, next call
number). -/
def runBaselineLoop (oracle : Invoker) :
    Nat → List TestItem → Except String (Nat × Nat × List BaselineResult × Nat)
  | k, [] => .ok (0, 0, [], k)
  | k, item :: rest =>
    match evaluateSingle (oracle k) (formatMmluPrompt item.question item.choices) with
    | .error e => .error e
    | .ok predicted =>
      match runBaselineLoop oracle (k + 1) rest with
      | .error e => .error e
      | .ok (t, c, rs, k') =>
        .ok (t + 1, c + (if predicted = item.answer then 1 else 0),
             ⟨item.question, predicted, item.answer, predicted = item.answer⟩ :: rs, k')

/-- `BenchmarkEvaluator.run_baseline_evaluation` over already-parsed CSV
rows. -/
def runBaselineEvaluation (oracle : Invoker) (testRows : List (List String)) :
    Except String RunReport :=
  match runBaselineLoop oracle 0 (loadTestData testRows) with
  | .error e => .error e
  | .ok (t, c, rs, _) => .ok ⟨t, c, accuracy c t, rs.map QRes.base⟩

/-- The loop of `run_optimized_evaluation` over the `zip` of test items and
variant rows: an empty variant row is skipped (`continue`), otherwise the
question is evaluated and counted. -/
def runOptimizedLoop (oracle : Invoker) :
    Nat → List (TestItem × List String) →
    Except String (Nat × Nat × List OptResult × Nat)
  | k, [] => .ok (0, 0, [], k)
  | k, (item, row) :: rest =>
    if row = [] then runOptimizedLoop oracle k rest
    else
      match evalOptimizedQuestion oracle k item row with
      | .error e => .error e
      | .ok (res, k₁) =>
        match runOptimizedLoop oracle k₁ rest with
        | .error e => .error e
        | .ok (t, c, rs, k') =>
          .ok (t + 1, c + (if res.is_correct then 1 else 0), res :: rs, k')

/-- `BenchmarkEvaluator.run_optimized_evaluation` over already-parsed CSV
rows: questions are paired positionally with variant rows by `zip`, which
drops everything beyond the shorter file. -/
def runOptimizedEvaluation (oracle : Invoker) (testRows promptsRows : List (List String)) :
    Except String RunReport :=
  match runOptimizedLoop oracle 0 ((loadTestData testRows).zip promptsRows) with
  | .error e => .error e
  | .ok (t, c, rs, _) => .ok ⟨t, c, accuracy c t, rs.map QRes.opt⟩

/-- `PromptGenerator.generate_prompt_variants`: `genResponse` is the LLM
chain's outcome (`none` = an exception was raised). On success, split on
`|`, trim each part, truncate to `numVariants`, and pad with the original
question up to `numVariants`; on failure return the question repeated
`numVariants` times. -/
def generatePromptVariants (genResponse : Option String) (question : String)
    (numVariants : Nat := 10) : List String :=
  match genResponse with
  | none => List.replicate numVariants question
  | some response =>
    let variants := ((response.splitOn "|").map pyStrip).take numVariants
    variants ++ List.replicate (numVariants - variants.length) question

/-- `PromptGenerator.process_test_file` over parsed CSV rows: rows with
fewer than five fields are skipped; each kept row contributes the variant
list generated from its first field (`gen` abstracts
`generate_prompt_variants` applied to the row's question). -/
def processTestFile (gen : String → List String) :
    List (List String) → List (List String)
  | [] => []
  | row :: rest =>
    match row with
    | q :: _ :: _ :: _ :: _ :: _ => gen q :: processTestFile gen rest
    | _ => processTestFile gen rest

/-- The results directory, modelled as an association list from file name
to persisted report; `main.py` writes each report at most once. -/
abbrev Store := List (String × RunReport)

/-- The caching pattern of `main.py` steps 4.1/4.2: if a report is already
persisted under `key`, load and return it without computing; otherwise run
`compute`, persist the result, and return it. The `Bool` records whether
`compute` was invoked. -/
def loadOrRun (store : Store) (key : String)
    (compute : Unit → Except String RunReport) :
    Except String (RunReport × Store × Bool) :=
  match store.lookup key with
  | some rep => .ok (rep, store, false)
  | none =>
    match compute () with
    | .ok rep => .ok (rep, (key, rep) :: store, true)
    | .error e => .error e

/-- `llm_name = llm_model.replace(":", "")`: since the pattern is the
single character `:`, replacing every occurrence with the empty string is
exactly dropping every colon. -/
def llmName (model : String) : String := ⟨model.data.filter (fun c => c ≠ ':')⟩

/-- The per-model entry of `results_summary["llm_models"]`. -/
structure ModelSummary where
  baseline_accuracy : ℚ
  optimized_accuracy : ℚ
  improvement : ℚ
  baseline_correct : Nat
  optimized_correct : Nat
  total_questions : Nat
  deriving DecidableEq, Repr

/-- The body of `main.py`'s per-model `try` block: obtain the baseline and
optimized reports through the cache, then build the summary entry. A
`RuntimeError` from either evaluation surfaces as `.error` carrying the
store as persisted up to the failure (nothing is saved for the failed
run). `compute model mode` abstracts running the corresponding
evaluation. -/
def processModel (compute : String → String → Unit → Except String RunReport)
    (store : Store) (model : String) : Except Store (Store × ModelSummary) :=
  match loadOrRun store (llmName model ++ "_baseline_results.json")
      (compute model "baseline") with
  | .error _ => .error store
  | .ok (b, s₁, _) =>
    match loadOrRun s₁ (llmName model ++ "_optimized_results.json")
        (compute model "optimized") with
    | .error _ => .error s₁
    | .ok (o, s₂, _) =>
      .ok (s₂, ⟨b.accuracy, o.accuracy, o.accuracy - b.accuracy,
                b.correct, o.correct, b.total⟩)

/-- `main.py`'s loop over `Config.LLM_MODELS`: process each model in order,
appending its summary entry; on a fatal invoker error `return` immediately
(remaining models unprocessed, summary file not written). The final `Bool`
is whether `experiment_summary.json` was written. -/
def mainLoop (compute : String → String → Unit → Except String RunReport)
    (store : Store) (summary : List (String × ModelSummary)) :
    List String → Store × List (String × ModelSummary) × Bool
  | [] => (store, summary, true)
  | m :: ms =>
    match processModel compute store m with
    | .error s => (s, summary, false)
    | .ok (s, entry) => mainLoop compute s (summary ++ [(m, entry)]) ms

/-! ## Theorems -/

/-- C1: for every invoker response string `r`, `evaluate_single` returns
`normalize(r)`, where `normalize` strips whitespace, uppercases, keeps an
exact A/B/C/D, else falls back to a matching first character, else "A";
"b" ↦ "B", "banana" ↦ "B", "xyz" ↦ "A", "" ↦ "A", deterministically. -/
theorem evaluateSingle_normalizes (invoke : String → InvokeResult)
    (prompt r : String) (h : invoke prompt = .ok r) :
    evaluateSingle invoke prompt = .ok (normalizeResponse r) ∧
    normalizeResponse "b" = "B" ∧ normalizeResponse "banana" = "B" ∧
    normalizeResponse "xyz" = "A" ∧ normalizeResponse "" = "A" := by
  refine ⟨?_, by decide, by decide, by decide, by decide⟩
  simp [evaluateSingle, h]

theorem evaluateSingle_normalizes_witness :
    evaluateSingle (fun _ => .ok "banana") "p" = .ok "B" := by
  have h := evaluateSingle_normalizes (fun _ => .ok "banana") "p" "banana" rfl
  rw [h.1]
  have hb : normalizeResponse "banana" = "B" := by decide
  rw [hb]

/-- C6: `evaluate_single` raises exactly when the underlying invoke call
fails: a transport error is re-raised as a fatal `RuntimeError`, while a
successful but unparseable response is normalized, never raised. -/
theorem evaluateSingle_raises_iff_invoke_fails
    (invoke : String → InvokeResult) (prompt : String) :
    ((evaluateSingle invoke prompt).isOk ↔ (invoke prompt).isOk) ∧
    (∀ e, invoke prompt = .error e →
      evaluateSingle invoke prompt =
        .error ("Failed to evaluate question with Ollama: " ++ e)) ∧
    (∀ r, invoke prompt = .ok r →
      evaluateSingle invoke prompt = .ok (normalizeResponse r)) := by
  refine ⟨?_, ?_, ?_⟩ <;> (try intro x hx) <;>
    cases h : invoke prompt <;>
      simp_all [evaluateSingle, Except.isOk, Except.toBool]

theorem evaluateSingle_raises_iff_invoke_fails_witness :
    evaluateSingle (fun _ => .error "timeout") "p" =
      .error "Failed to evaluate question with Ollama: timeout" :=
  (evaluateSingle_raises_iff_invoke_fails (fun _ => .error "timeout") "p").2.1
    "timeout" rfl

/-- C5: in every report of both modes, `accuracy = correct / total * 100`,
and `accuracy = 0` when `total = 0`. -/
theorem accuracy_formula :
    (∀ c t : Nat, 0 < t → accuracy c t = (c : ℚ) / t * 100) ∧
    (∀ c : Nat, accuracy c 0 = 0) ∧
    (∀ oracle testRows rep, runBaselineEvaluation oracle testRows = .ok rep →
      rep.accuracy = accuracy rep.correct rep.total) ∧
    (∀ oracle testRows promptsRows rep,
      runOptimizedEvaluation oracle testRows promptsRows = .ok rep →
      rep.accuracy = accuracy rep.correct rep.total) := by
  refine ⟨fun c t ht => by simp [accuracy, ht], fun c => by simp [accuracy],
    fun oracle testRows rep h => ?_, fun oracle testRows promptsRows rep h => ?_⟩
  · unfold runBaselineEvaluation at h
    rcases hl : runBaselineLoop oracle 0 (loadTestData testRows) with e | ⟨t, c, rs, k⟩ <;>
      rw [hl] at h <;> cases h
    rfl
  · unfold runOptimizedEvaluation at h
    rcases hl : runOptimizedLoop oracle 0 ((loadTestData testRows).zip promptsRows) with
      e | ⟨t, c, rs, k⟩ <;> rw [hl] at h <;> cases h
    rfl

theorem accuracy_formula_witness :
    (0 < 2 ∧ accuracy 1 2 = (1 : ℚ) / 2 * 100) ∧ accuracy 7 0 = 0 :=
  ⟨⟨by norm_num, accuracy_formula.1 1 2 (by norm_num)⟩, accuracy_formula.2.1 7⟩

theorem pyMax_mem (x : ℚ) (xs : List ℚ) : pyMax (x :: xs) ∈ x :: xs :=
  List.max?_mem max_choice (rfl : (x :: xs).max? = some (pyMax (x :: xs)))

theorem le_pyMax (x : ℚ) (xs : List ℚ) : ∀ a ∈ x :: xs, a ≤ pyMax (x :: xs) :=
  (List.max?_le_iff (fun _ _ _ => max_le_iff)
    (rfl : (x :: xs).max? = some (pyMax (x :: xs)))).mp le_rfl

/-- C2: the selected variant index is the first index achieving the maximum
score; ties resolve to the lowest index, e.g. `[0,1,1,0]` selects 1. -/
theorem best_idx_is_first_max :
    (∀ (s : ℚ) (rest : List ℚ),
      firstMaxIdx (s :: rest) < (s :: rest).length ∧
      (s :: rest).getD (firstMaxIdx (s :: rest)) 0 = pyMax (s :: rest) ∧
      (∀ j < firstMaxIdx (s :: rest), (s :: rest).getD j 0 ≠ pyMax (s :: rest)) ∧
      (∀ a ∈ s :: rest, a ≤ pyMax (s :: rest))) ∧
    (∀ oracle k item row res k',
      evalOptimizedQuestion oracle k item row = .ok (res, k') →
      res.best_idx = firstMaxIdx res.scores ∧
      res.best_prompt = row.getD res.best_idx "") ∧
    firstMaxIdx [0, 1, 1, 0] = 1 := by
  refine ⟨fun s rest => ?_, fun oracle k item row res k' h => ?_, by decide⟩
  · have hmem : ∃ y ∈ s :: rest, (y == pyMax (s :: rest)) = true :=
      ⟨pyMax (s :: rest), pyMax_mem s rest, beq_self_eq_true _⟩
    have hlt : firstMaxIdx (s :: rest) < (s :: rest).length :=
      List.findIdx_lt_length_of_exists hmem
    refine ⟨hlt, ?_, fun j hj => ?_, le_pyMax s rest⟩
    · rw [List.getD_eq_getElem _ _ hlt]
      exact eq_of_beq
        (@List.findIdx_getElem ℚ (fun y => y == pyMax (s :: rest)) (s :: rest)
          (by exact hlt))
    · have hjl : j < (s :: rest).length := hj.trans hlt
      rw [List.getD_eq_getElem _ _ hjl]
      have hfalse := @List.not_of_lt_findIdx ℚ
        (fun y => y == pyMax (s :: rest)) (s :: rest) j (by exact hj)
      simpa using hfalse
  · unfold evalOptimizedQuestion at h
    rcases hs : scoreVariants oracle item.choices item.answer k row with e | ⟨scores, k₁⟩ <;>
      rw [hs] at h
    · cases h
    rcases he : evaluateSingle (oracle k₁)
        (formatMmluPrompt (row.getD (firstMaxIdx scores) "") item.choices) with
      e | predicted <;> simp only [he] at h
    · cases h
    cases h
    exact ⟨rfl, rfl⟩

theorem best_idx_is_first_max_witness :
    evalOptimizedQuestion (fun _ _ => .ok "B") 0
        ⟨"q", ["w", "x", "y", "z"], "B"⟩ ["v1", "v2"] =
      .ok (⟨"q", "v1", 0, [1, 1], "B", "B", true⟩, 3) ∧
    (⟨"q", "v1", 0, [1, 1], "B", "B", true⟩ : OptResult).best_idx =
      firstMaxIdx [1, 1] := by
  have h : evalOptimizedQuestion (fun _ _ => .ok "B") 0
      ⟨"q", ["w", "x", "y", "z"], "B"⟩ ["v1", "v2"] =
      .ok (⟨"q", "v1", 0, [1, 1], "B", "B", true⟩, 3) := rfl
  refine ⟨h, ?_⟩
  have := (best_idx_is_first_max.2.1 (fun _ _ => .ok "B") 0
    ⟨"q", ["w", "x", "y", "z"], "B"⟩ ["v1", "v2"]
    ⟨"q", "v1", 0, [1, 1], "B", "B", true⟩ 3 h).1
  simpa using this

theorem evaluateSingle_ok_inv {invoke : String → InvokeResult} {p v : String}
    (h : evaluateSingle invoke p = .ok v) :
    ∃ r, invoke p = .ok r ∧ v = normalizeResponse r := by
  unfold evaluateSingle at h
  cases hi : invoke p <;> rw [hi] at h <;> cases h
  exact ⟨_, rfl, rfl⟩

theorem scoreVariants_ok (oracle : Invoker) (choices : List String)
    (answer : String) :
    ∀ (vs : List String) (k : Nat) (scores : List ℚ) (k₁ : Nat),
    scoreVariants oracle choices answer k vs = .ok (scores, k₁) →
    k₁ = k + vs.length ∧ scores.length = vs.length ∧
      ∀ s ∈ scores, s = 0 ∨ s = 1 := by
  intro vs
  induction vs with
  | nil => intro k scores k₁ h; cases h; simp
  | cons v vs ih =>
    intro k scores k₁ h
    unfold scoreVariants at h
    rcases he : evaluateSingle (oracle k) (formatMmluPrompt v choices) with e | p <;>
      rw [he] at h
    · cases h
    rcases hs : scoreVariants oracle choices answer (k + 1) vs with e | ⟨rest, k'⟩ <;>
      rw [hs] at h
    · cases h
    injection h with h
    injection h with hsc hk
    obtain ⟨hk2, hlen, hmem⟩ := ih (k + 1) rest k' hs
    subst hsc
    refine ⟨by simp only [List.length_cons]; omega, by simp [hlen], ?_⟩
    intro s hs'
    rcases List.mem_cons.mp hs' with h1 | h1
    · subst h1; split <;> simp
    · exact hmem s h1

/-- C3: the final judgment of an optimized question comes from a fresh
second invocation on the selected variant's prompt (the call right after
the `N` scoring calls), so each question costs exactly `N + 1` invoker
calls. -/
theorem final_judgment_is_fresh_call (oracle : Invoker) (k : Nat)
    (item : TestItem) (row : List String) (res : OptResult) (k' : Nat)
    (h : evalOptimizedQuestion oracle k item row = .ok (res, k')) :
    k' = k + row.length + 1 ∧
    ∃ r, oracle (k + row.length) (formatMmluPrompt res.best_prompt item.choices) = .ok r ∧
      res.predicted = normalizeResponse r ∧
      res.is_correct = decide (normalizeResponse r = item.answer) := by
  unfold evalOptimizedQuestion at h
  rcases hs : scoreVariants oracle item.choices item.answer k row with e | ⟨scores, k₁⟩ <;>
    rw [hs] at h
  · cases h
  obtain ⟨hk₁, -, -⟩ := scoreVariants_ok oracle item.choices item.answer row k scores k₁ hs
  rcases he : evaluateSingle (oracle k₁)
      (formatMmluPrompt (row.getD (firstMaxIdx scores) "") item.choices) with
    e | predicted <;> simp only [he] at h
  · cases h
  cases h
  obtain ⟨r, hr, hv⟩ := evaluateSingle_ok_inv he
  subst hk₁ hv
  exact ⟨rfl, r, hr, rfl, rfl⟩

theorem final_judgment_is_fresh_call_witness :
    evalOptimizedQuestion
        (fun n _ => (.ok (if n = 2 then "C" else "B") : InvokeResult)) 0
        ⟨"q", ["w", "x", "y", "z"], "C"⟩ ["u1", "u2"] =
      .ok (⟨"q", "u1", 0, [0, 0], "C", "C", true⟩, 3) ∧
    3 = 0 + (["u1", "u2"] : List String).length + 1 := by
  have h : evalOptimizedQuestion
      (fun n _ => (.ok (if n = 2 then "C" else "B") : InvokeResult)) 0
      ⟨"q", ["w", "x", "y", "z"], "C"⟩ ["u1", "u2"] =
      .ok (⟨"q", "u1", 0, [0, 0], "C", "C", true⟩, 3) := rfl
  exact ⟨h, (final_judgment_is_fresh_call _ 0 _ _ _ 3 h).1⟩

/-- C4: every optimized question's score list has exactly one entry per
variant (the generator always emits `numVariants` variants, default 10),
and every entry is 0.0 or 1.0. -/
theorem scores_one_per_variant :
    (∀ g q n, (generatePromptVariants g q n).length = n) ∧
    (∀ q, (generatePromptVariants none q).length = 10) ∧
    (∀ oracle k item row res k',
      evalOptimizedQuestion oracle k item row = .ok (res, k') →
      res.scores.length = row.length ∧ ∀ s ∈ res.scores, s = 0 ∨ s = 1) := by
  have hlen : ∀ g q n, (generatePromptVariants g q n).length = n := by
    intro g q n
    unfold generatePromptVariants
    rcases g with - | response
    · simp
    · simp only [List.length_append, List.length_replicate]
      have : (((response.splitOn "|").map pyStrip).take n).length ≤ n := by
        simp [List.length_take]
      omega
  refine ⟨hlen, fun q => hlen none q 10, ?_⟩
  intro oracle k item row res k' h
  unfold evalOptimizedQuestion at h
  rcases hs : scoreVariants oracle item.choices item.answer k row with e | ⟨scores, k₁⟩ <;>
    rw [hs] at h
  · cases h
  obtain ⟨-, hl, hm⟩ := scoreVariants_ok oracle item.choices item.answer row k scores k₁ hs
  rcases he : evaluateSingle (oracle k₁)
      (formatMmluPrompt (row.getD (firstMaxIdx scores) "") item.choices) with
    e | predicted <;> simp only [he] at h
  · cases h
  cases h
  exact ⟨hl, hm⟩

theorem scores_one_per_variant_witness :
    (generatePromptVariants (some "a|b|c") "q").length = 10 ∧
    evalOptimizedQuestion (fun _ _ => .ok "A") 0
        ⟨"q", ["w", "x", "y", "z"], "A"⟩ ["u1", "u2", "u3"] =
      .ok (⟨"q", "u1", 0, [1, 1, 1], "A", "A", true⟩, 4) ∧
    ([1, 1, 1] : List ℚ).length = ["u1", "u2", "u3"].length := by
  have h : evalOptimizedQuestion (fun _ _ => .ok "A") 0
      ⟨"q", ["w", "x", "y", "z"], "A"⟩ ["u1", "u2", "u3"] =
      .ok (⟨"q", "u1", 0, [1, 1, 1], "A", "A", true⟩, 4) := rfl
  refine ⟨scores_one_per_variant.1 (some "a|b|c") "q" 10, h, ?_⟩
  exact (scores_one_per_variant.2.2 (fun _ _ => .ok "A") 0
    ⟨"q", ["w", "x", "y", "z"], "A"⟩ ["u1", "u2", "u3"]
    ⟨"q", "u1", 0, [1, 1, 1], "A", "A", true⟩ 4 h).1

/-- C9: a row with at least six fields is loaded as a question (text, four
choices, trimmed-and-uppercased answer letter); a row with fewer than five
fields is silently skipped by both the question loader and the variant
generator. -/
theorem malformed_rows_skipped (row : List String) (rows : List (List String))
    (gen : String → List String) :
    (∀ q c1 c2 c3 c4 a rest,
      loadTestData ((q :: c1 :: c2 :: c3 :: c4 :: a :: rest) :: rows) =
        ⟨q, [c1, c2, c3, c4], pyUpper (pyStrip a)⟩ :: loadTestData rows) ∧
    (row.length < 5 →
      loadTestData (row :: rows) = loadTestData rows ∧
      processTestFile gen (row :: rows) = processTestFile gen rows) := by
  refine ⟨fun q c1 c2 c3 c4 a rest => rfl, fun h => ?_⟩
  rcases row with - | ⟨q, - | ⟨c1, - | ⟨c2, - | ⟨c3, - | ⟨c4, t⟩⟩⟩⟩⟩ <;>
    first
      | exact ⟨rfl, rfl⟩
      | (exfalso; simp only [List.length_cons] at h; omega)

theorem malformed_rows_skipped_witness :
    (["short", "row"] : List String).length < 5 ∧
    loadTestData [["short", "row"], ["q", "w", "x", "y", "z", "a", "extra"]] =
      [⟨"q", ["w", "x", "y", "z"], "A"⟩] ∧
    processTestFile (fun q => [q]) [["short", "row"]] = [] := by
  have h := malformed_rows_skipped ["short", "row"]
    [["q", "w", "x", "y", "z", "a", "extra"]] (fun q => [q])
  have h5 : (["short", "row"] : List String).length < 5 := by decide
  obtain ⟨hload, hproc⟩ := h.2 h5
  refine ⟨h5, ?_, ?_⟩
  · rw [hload]
    have := (malformed_rows_skipped [] [] (fun q => [q])).1 "q" "w" "x" "y" "z" "a" ["extra"]
    simpa using this
  · have := (malformed_rows_skipped ["short", "row"] [] (fun q => [q])).2 h5
    exact this.2

/-- C8: `load_or_run` returns the persisted report without computing when
one exists at the key; otherwise it computes once, persists and returns the
result; a second call with the same key then computes zero times and
returns the identical report. -/
theorem load_or_run_cache_contract :
    (∀ (store : Store) (key : String) c rep, store.lookup key = some rep →
      loadOrRun store key c = .ok (rep, store, false)) ∧
    (∀ (store : Store) (key : String) c rep, store.lookup key = none →
      c () = .ok rep →
      loadOrRun store key c = .ok (rep, (key, rep) :: store, true)) ∧
    (∀ (store : Store) (key : String) c c' rep s' b,
      loadOrRun store key c = .ok (rep, s', b) →
      loadOrRun s' key c' = .ok (rep, s', false)) := by
  refine ⟨fun store key c rep h => by simp [loadOrRun, h],
    fun store key c rep h hc => by simp [loadOrRun, h, hc], ?_⟩
  intro store key c c' rep s' b h
  unfold loadOrRun at h ⊢
  rcases hl : store.lookup key with - | r <;> rw [hl] at h
  · rcases hc : c () with e | w <;> rw [hc] at h
    · cases h
    · injection h with h
      injection h with h1 h
      injection h with h2 h3
      subst h1 h2
      simp [List.lookup]
  · injection h with h
    injection h with h1 h
    injection h with h2 h3
    subst h1 h2
    simp [hl]

theorem load_or_run_cache_contract_witness :
    loadOrRun [("k", (⟨0, 0, 0, []⟩ : RunReport))] "k"
        (fun _ => .error "must not be called") =
      .ok (⟨0, 0, 0, []⟩, [("k", ⟨0, 0, 0, []⟩)], false) :=
  load_or_run_cache_contract.1 [("k", ⟨0, 0, 0, []⟩)] "k"
    (fun _ => .error "must not be called") ⟨0, 0, 0, []⟩ rfl

theorem loadOrRun_preserves (store : Store) (key : String)
    (c : Unit → Except String RunReport) (rep : RunReport) (s' : Store)
    (b : Bool) (h : loadOrRun store key c = .ok (rep, s', b)) :
    ∀ k v, store.lookup k = some v → s'.lookup k = some v := by
  unfold loadOrRun at h
  rcases hl : store.lookup key with - | r <;> rw [hl] at h
  · rcases hc : c () with e | w <;> rw [hc] at h
    · cases h
    · injection h with h
      injection h with h1 h
      injection h with h2 h3
      subst h2
      intro k v hv
      rcases hk : k == key with - | -
      · simpa [List.lookup, hk] using hv
      · exact absurd (eq_of_beq hk ▸ hv) (by simp [hl])
  · injection h with h
    injection h with h1 h
    injection h with h2 h3
    subst h2
    exact fun k v hv => hv

/-- C7: a fatal invoker error while processing any model aborts the whole
experiment at once: no later model is processed, no summary is written, no
entry is added for the failing model, and every previously persisted report
is still in the store unchanged and loadable. -/
theorem fatal_error_aborts_experiment
    (compute : String → String → Unit → Except String RunReport)
    (st se : Store) (m : String)
    (h : processModel compute st m = .error se) :
    (∀ post summary, mainLoop compute st summary (m :: post) = (se, summary, false)) ∧
    (∀ k v, st.lookup k = some v → se.lookup k = some v) := by
  constructor
  · intro post summary
    unfold mainLoop
    rw [h]
  · unfold processModel at h
    split at h
    · cases h
      exact fun k v hv => hv
    · rename_i b s₁ x hb
      split at h
      · cases h
        exact loadOrRun_preserves _ _ _ _ _ _ hb
      · cases h

theorem fatal_error_aborts_experiment_witness :
    processModel (fun _ _ _ => .error "connection refused")
        [("prev_baseline_results.json", (⟨2, 1, 50, []⟩ : RunReport))] "m" =
      .error [("prev_baseline_results.json", ⟨2, 1, 50, []⟩)] ∧
    mainLoop (fun _ _ _ => .error "connection refused")
        [("prev_baseline_results.json", ⟨2, 1, 50, []⟩)] [] ["m", "m2"] =
      ([("prev_baseline_results.json", ⟨2, 1, 50, []⟩)], [], false) ∧
    List.lookup "prev_baseline_results.json"
        [("prev_baseline_results.json", (⟨2, 1, 50, []⟩ : RunReport))] =
      some ⟨2, 1, 50, []⟩ := by
  have h : processModel (fun _ _ _ => .error "connection refused")
      [("prev_baseline_results.json", (⟨2, 1, 50, []⟩ : RunReport))] "m" =
      .error [("prev_baseline_results.json", ⟨2, 1, 50, []⟩)] := rfl
  refine ⟨h, ?_, rfl⟩
  exact (fatal_error_aborts_experiment (fun _ _ _ => .error "connection refused")
    [("prev_baseline_results.json", ⟨2, 1, 50, []⟩)]
    [("prev_baseline_results.json", ⟨2, 1, 50, []⟩)] "m" h).1 ["m2"] []

theorem runOptimizedLoop_total_le (oracle : Invoker) :
    ∀ (pairs : List (TestItem × List String)) (k t c : Nat)
      (rs : List OptResult) (k' : Nat),
    runOptimizedLoop oracle k pairs = .ok (t, c, rs, k') → t ≤ pairs.length := by
  intro pairs
  induction pairs with
  | nil => intro k t c rs k' h; cases h; simp
  | cons p rest ih =>
    intro k t c rs k' h
    obtain ⟨item, row⟩ := p
    unfold runOptimizedLoop at h
    by_cases hrow : row = []
    · rw [if_pos hrow] at h
      exact (ih k t c rs k' h).trans (by simp)
    · rw [if_neg hrow] at h
      split at h
      · cases h
      · rename_i res k₁ he
        split at h
        · cases h
        · rename_i t₀ c₀ rs₀ k₂ hrec
          injection h with h
          injection h with h1 h
          injection h with h2 h
          have := ih k₁ t₀ c₀ rs₀ k₂ hrec
          simp only [List.length_cons]
          omega

/-- C10: a question paired with an empty variant row is silently excluded
from the optimized report; pairing is by `zip`, so questions beyond the
shorter file are dropped and the optimized total can undercut the baseline
total on the same question file, while the summary's `total_questions`
comes from the baseline report alone. -/
theorem optimized_drops_unpaired_questions :
    (∀ (oracle : Invoker) (k : Nat) (item : TestItem)
        (rest : List (TestItem × List String)),
      runOptimizedLoop oracle k ((item, ([] : List String)) :: rest) =
        runOptimizedLoop oracle k rest) ∧
    (∀ oracle testRows promptsRows rep,
      runOptimizedEvaluation oracle testRows promptsRows = .ok rep →
      rep.total ≤ min (loadTestData testRows).length promptsRows.length) ∧
    (∃ brep orep,
      runBaselineEvaluation (fun _ _ => .ok "A")
          [["q", "w", "x", "y", "z", "A"]] = .ok brep ∧
      runOptimizedEvaluation (fun _ _ => .ok "A")
          [["q", "w", "x", "y", "z", "A"]] [[]] = .ok orep ∧
      orep.total = 0 ∧ brep.total = 1) ∧
    (∀ compute (store : Store) model b s₁ x o s₂ y,
      loadOrRun store (llmName model ++ "_baseline_results.json")
          (compute model "baseline") = .ok (b, s₁, x) →
      loadOrRun s₁ (llmName model ++ "_optimized_results.json")
          (compute model "optimized") = .ok (o, s₂, y) →
      processModel compute store model =
        .ok (s₂, ⟨b.accuracy, o.accuracy, o.accuracy - b.accuracy,
                  b.correct, o.correct, b.total⟩)) := by
  refine ⟨fun oracle k item rest => by simp [runOptimizedLoop], ?_, ?_, ?_⟩
  · intro oracle testRows promptsRows rep h
    unfold runOptimizedEvaluation at h
    split at h
    · cases h
    · rename_i t c rs k hl
      cases h
      have := runOptimizedLoop_total_le oracle _ _ _ _ _ _ hl
      simpa [List.length_zip] using this
  · exact ⟨⟨1, 1, accuracy 1 1, [QRes.base ⟨"q", "A", "A", true⟩]⟩,
      ⟨0, 0, accuracy 0 0, []⟩, rfl, rfl, rfl, rfl⟩
  · intro compute store model b s₁ x o s₂ y hb ho
    simp [processModel, hb, ho]

theorem optimized_drops_unpaired_questions_witness :
    runOptimizedEvaluation (fun _ _ => .ok "A")
        [["q", "w", "x", "y", "z", "A"]] [[]] =
      .ok ⟨0, 0, accuracy 0 0, []⟩ ∧
    (0 : Nat) ≤ min 1 1 ∧
    processModel (fun _ _ _ => .ok (⟨1, 1, accuracy 1 1, []⟩ : RunReport)) [] "m" =
      .ok ([("m_optimized_results.json", ⟨1, 1, accuracy 1 1, []⟩),
            ("m_baseline_results.json", ⟨1, 1, accuracy 1 1, []⟩)],
           ⟨accuracy 1 1, accuracy 1 1, accuracy 1 1 - accuracy 1 1, 1, 1, 1⟩) := by
  have ho : runOptimizedEvaluation (fun _ _ => .ok "A")
      [["q", "w", "x", "y", "z", "A"]] [[]] = .ok ⟨0, 0, accuracy 0 0, []⟩ := rfl
  have h2 := optimized_drops_unpaired_questions.2.1 (fun _ _ => .ok "A")
    [["q", "w", "x", "y", "z", "A"]] [[]] ⟨0, 0, accuracy 0 0, []⟩ ho
  refine ⟨ho, le_trans (by simp) h2, ?_⟩
  exact optimized_drops_unpaired_questions.2.2.2
    (fun _ _ _ => .ok (⟨1, 1, accuracy 1 1, []⟩ : RunReport)) [] "m"
    ⟨1, 1, accuracy 1 1, []⟩ [("m_baseline_results.json", ⟨1, 1, accuracy 1 1, []⟩)]
    true ⟨1, 1, accuracy 1 1, []⟩
    [("m_optimized_results.json", ⟨1, 1, accuracy 1 1, []⟩),
     ("m_baseline_results.json", ⟨1, 1, accuracy 1 1, []⟩)] true rfl rfl

end Harness
